import Mathlib

/-!
Verification of the disadis dissemination pipeline.

This file shallowly embeds the request-handling pipeline of
`disseminator/download.go` (the `DownloadHandler.ServeHTTP` method and its
helper `currentVersion`) and the route-table construction loop of `main.go`
(`runHandlers`).  Go's standard-library string functions are modelled only as
far as the source uses them (TrimPrefix/TrimSuffix of "/", SplitN with n = 2,
LastIndex of ".", strconv.Atoi on a 64-bit platform); they are implemented
here by structural recursion over the character list so that every
definition evaluates inside the kernel.  HTTP responses are modelled as the
observable outcome written to the ResponseWriter: status, the headers the
handler itself sets, the body, plus a trace of the calls made to the Fedora
repository client.  Headers added by the Go net/http library itself (Date,
the Content-Type that http.Error sets, ...) are not part of the handler's
code and are not modelled.
-/

/-! ## Go standard-library string operations, as used by download.go -/

/-- strings.TrimPrefix(s, "/"): remove one leading "/" when present. -/
def trimLeadSlash (s : String) : String :=
  match s.toList with
  | '/' :: rest => String.mk rest
  | _ => s

/-- strings.TrimSuffix(s, "/"): remove one trailing "/" when present. -/
def trimTrailSlash (s : String) : String :=
  match s.toList.reverse with
  | '/' :: rest => String.mk rest.reverse
  | _ => s

/-- Split a character list at the first occurrence of sep: none when sep
does not occur, otherwise the pieces before and after that occurrence. -/
def breakAtFirst (sep : Char) : List Char → Option (List Char × List Char)
  | [] => none
  | c :: cs =>
    if c = sep then some ([], cs)
    else
      match breakAtFirst sep cs with
      | none => none
      | some (a, b) => some (c :: a, b)

/-- strings.SplitN(s, sep, 2) for a one-character separator: at most two
pieces, split at the first separator; the remainder is left joined. -/
def goSplitN2 (s : String) (sep : Char) : List String :=
  match breakAtFirst sep s.toList with
  | none => [s]
  | some (a, b) => [String.mk a, String.mk b]

/-- The digit-string value, or none when empty or a non-digit occurs. -/
def parseDigits (cs : List Char) : Option Nat :=
  match cs with
  | [] => none
  | _ =>
    if cs.all (fun c => c.isDigit) then
      some (cs.foldl (fun a c => a * 10 + (c.toNat - 48)) 0)
    else none

/-- strconv.Atoi: optional sign, then digits; errors on anything else and on
values outside the 64-bit int range (ints are 64-bit on the target). -/
def goAtoi (s : String) : Option Int :=
  let cs := s.toList
  let signAndDigits : Bool × List Char :=
    match cs with
    | '+' :: rest => (false, rest)
    | '-' :: rest => (true, rest)
    | _ => (false, cs)
  match parseDigits signAndDigits.2 with
  | none => none
  | some n =>
    let v : Int := if signAndDigits.1 then -(n : Int) else (n : Int)
    if -(2 ^ 63) ≤ v ∧ v < 2 ^ 63 then some v else none

/-- The substring after the last "."; none when there is no "." (this is
strings.LastIndex(s, ".") followed by the slice s[i+1:]). -/
def afterLastDot (s : String) : Option String :=
  let cs := s.toList
  if cs.contains '.' then
    some (String.mk ((cs.reverse.takeWhile (fun c => c ≠ '.')).reverse))
  else none

/-! ## Data model: fedora collaborator, auth collaborator, requests -/

/-- fedora.DsInfo, as far as download.go reads it. -/
structure DsInfo where
  Label : String
  VersionID : String
  deriving DecidableEq, Repr

/-- The content descriptor returned by GetDatastream.  The source field
named Type is rendered MimeType because Type is a Lean keyword. -/
structure ContentInfo where
  MimeType : String
  Length : String
  deriving DecidableEq, Repr

/-- Errors from the fedora client: the distinguished not-found sentinel
(fedora.FedoraNotFound) versus any other error. -/
inductive FedoraErr where
  | FedoraNotFound
  | other (msg : String)
  deriving DecidableEq, Repr

/-- fedora.Fedora: the repository client interface consumed by the handler.
GetDatastream's byte stream is modelled as the string of bytes it yields. -/
structure Fedora where
  GetDatastreamInfo : String → String → Except FedoraErr DsInfo
  GetDatastream : String → String → Except FedoraErr (String × ContentInfo)

/-- The four-valued decision of auth.HydraAuth.Check. -/
inductive AuthDecision where
  | AuthAllow
  | AuthDeny
  | AuthNotFound
  | AuthError
  deriving DecidableEq, Repr

/-- An HTTP request, as far as ServeHTTP reads it: method, URL path, and the
If-None-Match header (none when the header is absent; some xs when present
with value list xs, matching the ok flag of the Go map lookup). -/
structure Request where
  method : String
  urlPath : String
  ifNoneMatch : Option (List String)

/-- One call made to the repository client during a request. -/
inductive FedoraCall where
  | getInfo (pid ds : String)
  | getContent (pid ds : String)
  deriving DecidableEq, Repr

/-- The observable outcome of a request: status code, headers the handler
set, body bytes written, and the trace of repository-client calls. -/
structure HttpOut where
  status : Nat
  headers : List (String × String)
  body : String
  calls : List FedoraCall
  deriving DecidableEq, Repr

/-- disseminator.DownloadHandler.  The Auth field is the optional
authorization checker; when present it is the Check function.  The source
field named Prefix is rendered PrefixStr. -/
structure DownloadHandler where
  Fedora : Fedora
  Ds : String
  Versioned : Bool
  PrefixStr : String
  Auth : Option (Request → String → AuthDecision)

/-- http.Error(w, msg, code): Go writes msg followed by a newline. -/
def httpError (msg : String) (code : Nat) (calls : List FedoraCall) : HttpOut :=
  { status := code, headers := [], body := msg ++ "\n", calls := calls }

/-- The notFound helper of download.go. -/
def notFound (calls : List FedoraCall) : HttpOut :=
  httpError "404 Not Found" 404 calls

/-! ## The pipeline (download.go ServeHTTP), stage by stage -/

/-- Path parsing (lines 80-82): trim one leading and one trailing "/",
then SplitN on "/" with n = 2. -/
def parsePath (urlPath : String) : List String :=
  goSplitN2 (trimTrailSlash (trimLeadSlash urlPath)) '/'

/-- currentVersion (download.go lines 181-194): the number after the last
"." of VersionID, or -1 when there is no "." or Atoi fails. -/
def currentVersion (info : DsInfo) : Int :=
  match afterLastDot info.VersionID with
  | none => -1
  | some suf =>
    match goAtoi suf with
    | none => -1
    | some v => v

/-- The auth block (lines 90-107): none when processing continues, some out
when the request terminates here.  AuthError and any unknown value fall
through to the 500 branch in the source, so the model's four values cover
exactly the source's outcomes. -/
def authStage (dh : DownloadHandler) (r : Request) (pid : String) : Option HttpOut :=
  match dh.Auth with
  | none => none
  | some check =>
    match check r pid with
    | AuthDecision.AuthDeny => some (httpError "401 Unauthorized" 401 [])
    | AuthDecision.AuthNotFound => some (notFound [])
    | AuthDecision.AuthAllow => none
    | AuthDecision.AuthError => some (httpError "500 Server Error" 500 [])

/-- The version switch (lines 109-125): ok version to continue (version = -1
means current), error out when the request terminates with 404.  Two
components pass only on a versioned handler with Atoi succeeding and the
value non-negative; everything else falls through to notFound. -/
def versionStage (versioned : Bool) (components : List String) :
    Except HttpOut Int :=
  match components with
  | [_] => Except.ok (-1)
  | [_, v2] =>
    if versioned then
      match goAtoi v2 with
      | some v => if 0 ≤ v then Except.ok v else Except.error (notFound [])
      | none => Except.error (notFound [])
    else Except.error (notFound [])
  | _ => Except.error (notFound [])

/-- Stage 8 (lines 153-177): fetch the content and stream it with the six
response headers, mapping FedoraNotFound to 404 and anything else to 500. -/
def contentStage (dh : DownloadHandler) (pid : String) (dsinfo : DsInfo) : HttpOut :=
  match dh.Fedora.GetDatastream pid dh.Ds with
  | Except.error FedoraErr.FedoraNotFound =>
    notFound [FedoraCall.getInfo pid dh.Ds, FedoraCall.getContent pid dh.Ds]
  | Except.error (FedoraErr.other _) =>
    httpError "500 Internal Error" 500
      [FedoraCall.getInfo pid dh.Ds, FedoraCall.getContent pid dh.Ds]
  | Except.ok (content, info) =>
    { status := 200
    , headers :=
        [ ("Content-Type", info.MimeType)
        , ("Content-Length", info.Length)
        , ("Content-Disposition", "inline; filename=\"" ++ dsinfo.Label ++ "\"")
        , ("Content-Transfer-Encoding", "binary")
        , ("Cache-Control", "private")
        , ("ETag", dsinfo.VersionID) ]
    , body := content
    , calls := [FedoraCall.getInfo pid dh.Ds, FedoraCall.getContent pid dh.Ds] }

/-- Stages 5-8 (lines 127-177): metadata fetch (any error yields 404), the
version-reconciliation check, the If-None-Match conditional, and content
streaming. -/
def metadataStage (dh : DownloadHandler) (r : Request) (pid : String)
    (version : Int) : HttpOut :=
  match dh.Fedora.GetDatastreamInfo pid dh.Ds with
  | Except.error _ => notFound [FedoraCall.getInfo pid dh.Ds]
  | Except.ok dsinfo =>
    if 0 ≤ version ∧ version ≠ currentVersion dsinfo then
      httpError "403 Forbidden" 403 [FedoraCall.getInfo pid dh.Ds]
    else
      match r.ifNoneMatch with
      | some etags =>
        if etags.contains dsinfo.VersionID then
          { status := 304
          , headers := [("ETag", dsinfo.VersionID)]
          , body := ""
          , calls := [FedoraCall.getInfo pid dh.Ds] }
        else contentStage dh pid dsinfo
      | none => contentStage dh pid dsinfo

/-- The pipeline after the auth block: the version switch followed by the
metadata, conditional and content stages. -/
def postAuth (dh : DownloadHandler) (r : Request) (pid : String) : HttpOut :=
  match versionStage dh.Versioned (parsePath r.urlPath) with
  | Except.error out => out
  | Except.ok version => metadataStage dh r pid version

/-- DownloadHandler.ServeHTTP (download.go lines 71-178). -/
def ServeHTTP (dh : DownloadHandler) (r : Request) : HttpOut :=
  if r.method = "GET" then
    let components := parsePath r.urlPath
    let pid := dh.PrefixStr ++ components.headD ""
    match authStage dh r pid with
    | some out => out
    | none => postAuth dh r pid
  else notFound []

/-! ## Scratch checks of the embedding on the spec's concrete scenarios -/

def fedoraGood : Fedora :=
  { GetDatastreamInfo := fun _ _ =>
      Except.ok { Label := "file.pdf", VersionID := "abc123.3" }
  , GetDatastream := fun _ _ =>
      Except.ok ("DATA", { MimeType := "application/pdf", Length := "4" }) }

def dhPlain : DownloadHandler :=
  { Fedora := fedoraGood, Ds := "content", Versioned := true
  , PrefixStr := "", Auth := none }

example : (ServeHTTP dhPlain { method := "GET", urlPath := "/abc123", ifNoneMatch := none }).status = 200 := by decide
example : (ServeHTTP dhPlain { method := "GET", urlPath := "/abc123/3", ifNoneMatch := none }).status = 200 := by decide
example : (ServeHTTP dhPlain { method := "GET", urlPath := "/abc123/5", ifNoneMatch := none }).status = 403 := by decide
example : (ServeHTTP dhPlain { method := "GET", urlPath := "/abc123", ifNoneMatch := some ["abc123.3"] }).status = 304 := by decide
example : (ServeHTTP dhPlain { method := "POST", urlPath := "/abc123", ifNoneMatch := none }).status = 404 := by decide
example : parsePath "///" = ["", ""] := by decide
example : parsePath "//" = [""] := by decide
example : goAtoi "3" = some 3 ∧ goAtoi "-3" = some (-3) ∧ goAtoi "" = none ∧ goAtoi "+7" = some 7 := by decide

/-! ## Helper lemmas about the pipeline stages -/

/-- A GET request that passes authorization and version validation runs the
metadata stage with the parsed pid and version. -/
lemma ServeHTTP_reaches_metadata (dh : DownloadHandler) (r : Request)
    (pid : String) (version : Int)
    (hm : r.method = "GET")
    (hpid : pid = dh.PrefixStr ++ (parsePath r.urlPath).headD "")
    (hauth : authStage dh r pid = none)
    (hver : versionStage dh.Versioned (parsePath r.urlPath) = Except.ok version) :
    ServeHTTP dh r = metadataStage dh r pid version := by
  subst hpid
  unfold ServeHTTP
  rw [if_pos hm]
  simp only []
  rw [hauth]
  unfold postAuth
  rw [hver]

/-- A GET request that passes authorization but fails version validation
terminates with the validation stage's outcome. -/
lemma ServeHTTP_version_reject (dh : DownloadHandler) (r : Request)
    (pid : String) (out : HttpOut)
    (hm : r.method = "GET")
    (hpid : pid = dh.PrefixStr ++ (parsePath r.urlPath).headD "")
    (hauth : authStage dh r pid = none)
    (hver : versionStage dh.Versioned (parsePath r.urlPath) = Except.error out) :
    ServeHTTP dh r = out := by
  subst hpid
  unfold ServeHTTP
  rw [if_pos hm]
  simp only []
  rw [hauth]
  unfold postAuth
  rw [hver]

/-- On a versioned handler, a two-segment path whose second segment is a
non-negative integer passes version validation with that token. -/
lemma versionStage_token (c0 c1 : String) (tok : Int)
    (htok : goAtoi c1 = some tok) (htok0 : 0 ≤ tok) :
    versionStage true [c0, c1] = Except.ok tok := by
  simp [versionStage, htok, htok0]

/-- When the metadata fetch succeeds and the held version is non-negative
but differs from the current version, the response is 403 Forbidden. -/
lemma metadataStage_mismatch (dh : DownloadHandler) (r : Request)
    (pid : String) (version : Int) (dsinfo : DsInfo)
    (hinfo : dh.Fedora.GetDatastreamInfo pid dh.Ds = Except.ok dsinfo)
    (h0 : 0 ≤ version) (hne : version ≠ currentVersion dsinfo) :
    metadataStage dh r pid version =
      httpError "403 Forbidden" 403 [FedoraCall.getInfo pid dh.Ds] := by
  unfold metadataStage
  rw [hinfo]
  simp [h0, hne]

/-- When the metadata fetch succeeds and the held version equals the
current version, the metadata stage behaves exactly as with no version
requested (version -1). -/
lemma metadataStage_match_eq_noversion (dh : DownloadHandler) (r : Request)
    (pid : String) (version : Int) (dsinfo : DsInfo)
    (hinfo : dh.Fedora.GetDatastreamInfo pid dh.Ds = Except.ok dsinfo)
    (heq : version = currentVersion dsinfo) :
    metadataStage dh r pid version = metadataStage dh r pid (-1) := by
  unfold metadataStage
  rw [hinfo]
  simp [heq]

/-! ## C7: the method gate -/

/-- C7: every request whose method is not GET yields 404 Not Found
immediately, with no headers, the plain 404 body, and no repository-client
call, regardless of path, configuration, authorization or repository
state. -/
theorem non_get_yields_404 (dh : DownloadHandler) (r : Request)
    (hm : r.method ≠ "GET") :
    ServeHTTP dh r =
      { status := 404, headers := [], body := "404 Not Found\n", calls := [] } := by
  unfold ServeHTTP
  rw [if_neg hm]
  rfl

/-- Witness for C7 at the spec's concrete scenario D: POST /abc123. -/
theorem non_get_yields_404_witness :
    ServeHTTP dhPlain { method := "POST", urlPath := "/abc123", ifNoneMatch := none } =
      { status := 404, headers := [], body := "404 Not Found\n", calls := [] } :=
  non_get_yields_404 dhPlain
    { method := "POST", urlPath := "/abc123", ifNoneMatch := none } (by decide)

/-! ## C1: error mapping of the metadata fetch -/

/-- A fedora client whose calls fail with a non-not-found error. -/
def fedoraBoom : Fedora :=
  { GetDatastreamInfo := fun _ _ => Except.error (FedoraErr.other "connection refused")
  , GetDatastream := fun _ _ => Except.error (FedoraErr.other "connection refused") }

def dhBoom : DownloadHandler :=
  { Fedora := fedoraBoom, Ds := "content", Versioned := false
  , PrefixStr := "", Auth := none }

/-- C1 counterexample: when the metadata call fails with an error other
than the not-found sentinel, the response status is 404, not the 500 the
claim asserts (download.go lines 128-131 treat every metadata error
alike). -/
theorem metadata_other_error_status_counterexample :
    (ServeHTTP dhBoom { method := "GET", urlPath := "/abc123", ifNoneMatch := none }).status = 404 ∧
    (ServeHTTP dhBoom { method := "GET", urlPath := "/abc123", ifNoneMatch := none }).status ≠ 500 := by
  decide

/-- C1 amended: for every request that reaches the metadata-fetch stage,
any error from GetDatastreamInfo - the not-found sentinel and every other
error alike - yields a 404 response, after which processing stops. -/
theorem metadata_error_yields_404 (dh : DownloadHandler) (r : Request)
    (pid : String) (version : Int) (e : FedoraErr)
    (hm : r.method = "GET")
    (hpid : pid = dh.PrefixStr ++ (parsePath r.urlPath).headD "")
    (hauth : authStage dh r pid = none)
    (hver : versionStage dh.Versioned (parsePath r.urlPath) = Except.ok version)
    (herr : dh.Fedora.GetDatastreamInfo pid dh.Ds = Except.error e) :
    ServeHTTP dh r = notFound [FedoraCall.getInfo pid dh.Ds] := by
  rw [ServeHTTP_reaches_metadata dh r pid version hm hpid hauth hver]
  unfold metadataStage
  rw [herr]

/-- Witness for C1 amended: a concrete GET against the failing client. -/
theorem metadata_error_yields_404_witness :
    ServeHTTP dhBoom { method := "GET", urlPath := "/abc123", ifNoneMatch := none } =
      notFound [FedoraCall.getInfo "abc123" "content"] :=
  metadata_error_yields_404 dhBoom
    { method := "GET", urlPath := "/abc123", ifNoneMatch := none }
    "abc123" (-1) (FedoraErr.other "connection refused")
    (by decide) (by decide) rfl rfl rfl

/-! ## C2: version reconciliation on versioned handlers -/

/-- C2: on a versioned handler, a GET with a two-segment path whose second
segment is a non-negative integer proceeds exactly as if no version had
been requested when the token equals the current version parsed from the
metadata's version identifier, and is answered 403 Forbidden for any other
token. -/
theorem version_token_reconciliation (dh : DownloadHandler) (r : Request)
    (c0 c1 : String) (tok : Int) (dsinfo : DsInfo) (pid : String)
    (hm : r.method = "GET") (hv : dh.Versioned = true)
    (hcomp : parsePath r.urlPath = [c0, c1])
    (htok : goAtoi c1 = some tok) (htok0 : 0 ≤ tok)
    (hpid : pid = dh.PrefixStr ++ c0)
    (hauth : authStage dh r pid = none)
    (hinfo : dh.Fedora.GetDatastreamInfo pid dh.Ds = Except.ok dsinfo) :
    (tok = currentVersion dsinfo →
       ServeHTTP dh r = metadataStage dh r pid (-1)) ∧
    (tok ≠ currentVersion dsinfo →
       ServeHTTP dh r =
         httpError "403 Forbidden" 403 [FedoraCall.getInfo pid dh.Ds]) := by
  have hpid' : pid = dh.PrefixStr ++ (parsePath r.urlPath).headD "" := by
    rw [hcomp]; exact hpid
  have hver : versionStage dh.Versioned (parsePath r.urlPath) = Except.ok tok := by
    rw [hcomp, hv]; exact versionStage_token c0 c1 tok htok htok0
  have hrun : ServeHTTP dh r = metadataStage dh r pid tok :=
    ServeHTTP_reaches_metadata dh r pid tok hm hpid' hauth hver
  constructor
  · intro heq
    rw [hrun]
    exact metadataStage_match_eq_noversion dh r pid tok dsinfo hinfo heq
  · intro hne
    rw [hrun]
    exact metadataStage_mismatch dh r pid tok dsinfo hinfo htok0 hne

def rV3 : Request := { method := "GET", urlPath := "/abc123/3", ifNoneMatch := none }

/-- Witness for C2: GET /abc123/3 against current version identifier
abc123.3 proceeds as the unversioned request does (scenario A). -/
theorem version_token_reconciliation_witness :
    ServeHTTP dhPlain rV3 = metadataStage dhPlain rV3 "abc123" (-1) :=
  (version_token_reconciliation dhPlain rV3 "abc123" "3" 3
    { Label := "file.pdf", VersionID := "abc123.3" } "abc123"
    (by decide) rfl (by decide) (by decide) (by decide) (by decide) rfl rfl).1
    (by decide)

/-! ## C3: unparsable version identifiers always mismatch -/

/-- A fedora client whose metadata carries a version identifier without a
parsable numeric suffix. -/
def fedoraBadVid : Fedora :=
  { GetDatastreamInfo := fun _ _ =>
      Except.ok { Label := "file.pdf", VersionID := "noseparator" }
  , GetDatastream := fun _ _ =>
      Except.ok ("DATA", { MimeType := "application/pdf", Length := "4" }) }

def dhBadVid : DownloadHandler :=
  { Fedora := fedoraBadVid, Ds := "content", Versioned := true
  , PrefixStr := "", Auth := none }

/-- C3: on a versioned request with a validated token, a metadata version
identifier with no "." or with an unparsable suffix resolves to the
sentinel -1, which no non-negative token can equal, so the response is
always 403 Forbidden. -/
theorem unparsable_version_identifier_yields_403 (dh : DownloadHandler)
    (r : Request) (c0 c1 : String) (tok : Int) (dsinfo : DsInfo) (pid : String)
    (hm : r.method = "GET") (hv : dh.Versioned = true)
    (hcomp : parsePath r.urlPath = [c0, c1])
    (htok : goAtoi c1 = some tok) (htok0 : 0 ≤ tok)
    (hpid : pid = dh.PrefixStr ++ c0)
    (hauth : authStage dh r pid = none)
    (hinfo : dh.Fedora.GetDatastreamInfo pid dh.Ds = Except.ok dsinfo)
    (hbad : afterLastDot dsinfo.VersionID = none ∨
      ∃ suf, afterLastDot dsinfo.VersionID = some suf ∧ goAtoi suf = none) :
    currentVersion dsinfo = -1 ∧
    ServeHTTP dh r =
      httpError "403 Forbidden" 403 [FedoraCall.getInfo pid dh.Ds] := by
  have hcv : currentVersion dsinfo = -1 := by
    rcases hbad with h | ⟨suf, hs, hga⟩
    · simp [currentVersion, h]
    · simp [currentVersion, hs, hga]
  have hpid' : pid = dh.PrefixStr ++ (parsePath r.urlPath).headD "" := by
    rw [hcomp]; exact hpid
  have hver : versionStage dh.Versioned (parsePath r.urlPath) = Except.ok tok := by
    rw [hcomp, hv]; exact versionStage_token c0 c1 tok htok htok0
  have hrun : ServeHTTP dh r = metadataStage dh r pid tok :=
    ServeHTTP_reaches_metadata dh r pid tok hm hpid' hauth hver
  have hne : tok ≠ currentVersion dsinfo := by
    rw [hcv]; omega
  exact ⟨hcv, hrun.trans
    (metadataStage_mismatch dh r pid tok dsinfo hinfo htok0 hne)⟩

/-- Witness for C3: GET /abc123/0 when the metadata's version identifier
has no "." separator. -/
theorem unparsable_version_identifier_yields_403_witness :
    currentVersion { Label := "file.pdf", VersionID := "noseparator" } = -1 ∧
    ServeHTTP dhBadVid { method := "GET", urlPath := "/abc123/0", ifNoneMatch := none } =
      httpError "403 Forbidden" 403 [FedoraCall.getInfo "abc123" "content"] :=
  unparsable_version_identifier_yields_403 dhBadVid
    { method := "GET", urlPath := "/abc123/0", ifNoneMatch := none }
    "abc123" "0" 0 { Label := "file.pdf", VersionID := "noseparator" } "abc123"
    (by decide) rfl (by decide) (by decide) (by decide) (by decide) rfl rfl
    (Or.inl (by decide))

/-! ## C4: the conditional (If-None-Match) check -/

/-- C4: for every request that reaches the conditional-check stage, an
If-None-Match value equal to the metadata's version identifier yields 304
with the ETag header set to that identifier, an empty body, and no
GetDatastream call (the call trace holds only the metadata fetch). -/
theorem etag_match_yields_304 (dh : DownloadHandler) (r : Request)
    (pid : String) (version : Int) (dsinfo : DsInfo) (etags : List String)
    (hm : r.method = "GET")
    (hpid : pid = dh.PrefixStr ++ (parsePath r.urlPath).headD "")
    (hauth : authStage dh r pid = none)
    (hver : versionStage dh.Versioned (parsePath r.urlPath) = Except.ok version)
    (hinfo : dh.Fedora.GetDatastreamInfo pid dh.Ds = Except.ok dsinfo)
    (hpass : ¬(0 ≤ version ∧ version ≠ currentVersion dsinfo))
    (hH : r.ifNoneMatch = some etags)
    (hmem : dsinfo.VersionID ∈ etags) :
    ServeHTTP dh r =
      { status := 304
      , headers := [("ETag", dsinfo.VersionID)]
      , body := ""
      , calls := [FedoraCall.getInfo pid dh.Ds] } := by
  rw [ServeHTTP_reaches_metadata dh r pid version hm hpid hauth hver]
  have hc : etags.contains dsinfo.VersionID = true := by simpa using hmem
  simp [metadataStage, hinfo, hpass, hH, hc]
  exact fun h => absurd hmem h

/-- Witness for C4: GET /abc123 with If-None-Match abc123.3 (scenario A's
conditional request). -/
theorem etag_match_yields_304_witness :
    ServeHTTP dhPlain
        { method := "GET", urlPath := "/abc123", ifNoneMatch := some ["abc123.3"] } =
      { status := 304
      , headers := [("ETag", "abc123.3")]
      , body := ""
      , calls := [FedoraCall.getInfo "abc123" "content"] } :=
  etag_match_yields_304 dhPlain
    { method := "GET", urlPath := "/abc123", ifNoneMatch := some ["abc123.3"] }
    "abc123" (-1) { Label := "file.pdf", VersionID := "abc123.3" } ["abc123.3"]
    (by decide) (by decide) rfl rfl rfl (by decide) rfl (by decide)

/-! ## C5: the authorization mapping -/

/-- C5: when an Authorization Checker is configured it runs before any
version validation or repository call; Deny maps to 401, NotFound to 404,
Error to 500 - each with an empty repository-call trace - and Allow
continues processing exactly as the same handler with no checker would. -/
theorem auth_decision_mapping (dh : DownloadHandler) (r : Request)
    (check : Request → String → AuthDecision) (pid : String)
    (hm : r.method = "GET")
    (hpid : pid = dh.PrefixStr ++ (parsePath r.urlPath).headD "")
    (ha : dh.Auth = some check) :
    (check r pid = AuthDecision.AuthDeny →
       ServeHTTP dh r =
         { status := 401, headers := [], body := "401 Unauthorized\n", calls := [] }) ∧
    (check r pid = AuthDecision.AuthNotFound →
       ServeHTTP dh r =
         { status := 404, headers := [], body := "404 Not Found\n", calls := [] }) ∧
    (check r pid = AuthDecision.AuthError →
       ServeHTTP dh r =
         { status := 500, headers := [], body := "500 Server Error\n", calls := [] }) ∧
    (check r pid = AuthDecision.AuthAllow →
       ServeHTTP dh r = ServeHTTP { dh with Auth := none } r) := by
  subst hpid
  refine ⟨fun hd => ?_, fun hd => ?_, fun hd => ?_, fun hd => ?_⟩
  · simp only [ServeHTTP, hm, reduceIte, authStage, ha, hd]
    rfl
  · simp only [ServeHTTP, hm, reduceIte, authStage, ha, hd]
    rfl
  · simp only [ServeHTTP, hm, reduceIte, authStage, ha, hd]
    rfl
  · simp only [ServeHTTP, hm, reduceIte, authStage, ha, hd]
    rfl

/-- A deny-everything checker. -/
def denyAll : Request → String → AuthDecision := fun _ _ => AuthDecision.AuthDeny

def dhDeny : DownloadHandler :=
  { Fedora := fedoraGood, Ds := "content", Versioned := true
  , PrefixStr := "", Auth := some denyAll }

/-- Witness for C5: the deny-everything checker turns GET /abc123 into 401
with no repository call. -/
theorem auth_decision_mapping_witness :
    ServeHTTP dhDeny { method := "GET", urlPath := "/abc123", ifNoneMatch := none } =
      { status := 401, headers := [], body := "401 Unauthorized\n", calls := [] } :=
  (auth_decision_mapping dhDeny
    { method := "GET", urlPath := "/abc123", ifNoneMatch := none }
    denyAll "abc123" (by decide) (by decide) rfl).1 rfl

/-! ## C6: rejection of second path segments -/

/-- C6: a GET whose path has a second segment is answered 404 with no
repository call whenever the handler is not versioned, and likewise on any
handler whenever the segment is not a non-negative integer, independent of
the repository's behavior. -/
theorem second_segment_rejection (dh : DownloadHandler) (r : Request)
    (c0 c1 : String) (pid : String)
    (hm : r.method = "GET")
    (hcomp : parsePath r.urlPath = [c0, c1])
    (hpid : pid = dh.PrefixStr ++ c0)
    (hauth : authStage dh r pid = none)
    (hv : dh.Versioned = false ∨ ∀ v, goAtoi c1 = some v → v < 0) :
    ServeHTTP dh r = notFound [] := by
  have hpid' : pid = dh.PrefixStr ++ (parsePath r.urlPath).headD "" := by
    rw [hcomp]; exact hpid
  have hver : versionStage dh.Versioned (parsePath r.urlPath) =
      Except.error (notFound []) := by
    rw [hcomp]
    rcases hv with h | h
    · simp [versionStage, h]
    · cases hvflag : dh.Versioned with
      | false => simp [versionStage]
      | true =>
        cases hga : goAtoi c1 with
        | none => simp [versionStage, hga]
        | some v =>
          have hlt : ¬(0 ≤ v) := by
            have := h v hga
            omega
          simp [versionStage, hga, hlt]
  exact ServeHTTP_version_reject dh r pid (notFound []) hm hpid' hauth hver

/-- Witness for C6: the non-versioned handler rejects GET /abc123/3 with
404 and an empty call trace (scenario B). -/
theorem second_segment_rejection_witness :
    ServeHTTP dhBoom { method := "GET", urlPath := "/abc123/3", ifNoneMatch := none } =
      notFound [] :=
  second_segment_rejection dhBoom
    { method := "GET", urlPath := "/abc123/3", ifNoneMatch := none }
    "abc123" "3" "abc123" (by decide) (by decide) (by decide) rfl (Or.inl rfl)

/-! ## C8: the success response -/

/-- C8: whenever the content fetch succeeds, the response is 200 and its
headers are exactly Content-Type and Content-Length from the content
descriptor, Content-Disposition inline with the metadata label as quoted
filename, Content-Transfer-Encoding binary, Cache-Control private, and
ETag equal to the metadata's version identifier. -/
theorem success_response_headers (dh : DownloadHandler) (pid : String)
    (dsinfo : DsInfo) (content : String) (info : ContentInfo)
    (hc : dh.Fedora.GetDatastream pid dh.Ds = Except.ok (content, info)) :
    contentStage dh pid dsinfo =
      { status := 200
      , headers :=
          [ ("Content-Type", info.MimeType)
          , ("Content-Length", info.Length)
          , ("Content-Disposition", "inline; filename=\"" ++ dsinfo.Label ++ "\"")
          , ("Content-Transfer-Encoding", "binary")
          , ("Cache-Control", "private")
          , ("ETag", dsinfo.VersionID) ]
      , body := content
      , calls := [FedoraCall.getInfo pid dh.Ds, FedoraCall.getContent pid dh.Ds] } := by
  unfold contentStage
  rw [hc]

/-- Witness for C8 on the concrete good client. -/
theorem success_response_headers_witness :
    contentStage dhPlain "abc123" { Label := "file.pdf", VersionID := "abc123.3" } =
      { status := 200
      , headers :=
          [ ("Content-Type", "application/pdf")
          , ("Content-Length", "4")
          , ("Content-Disposition", "inline; filename=\"file.pdf\"")
          , ("Content-Transfer-Encoding", "binary")
          , ("Cache-Control", "private")
          , ("ETag", "abc123.3") ]
      , body := "DATA"
      , calls := [FedoraCall.getInfo "abc123" "content", FedoraCall.getContent "abc123" "content"] } :=
  success_response_headers dhPlain "abc123"
    { Label := "file.pdf", VersionID := "abc123.3" } "DATA"
    { MimeType := "application/pdf", Length := "4" } rfl

/-! ## C10: paths that are empty or only separators -/

/-- C10 counterexample: the all-separator path "///" does not split into a
single empty segment; it splits into two segments and the request is
rejected 404 with no repository call, never reaching the metadata fetch. -/
theorem separator_path_counterexample :
    parsePath "///" = ["", ""] ∧
    ServeHTTP dhPlain { method := "GET", urlPath := "///", ifNoneMatch := none } =
      notFound [] := by
  decide

/-- C10 amended: for a GET whose path is empty or at most two separators,
the split yields a single empty segment, the identifier is exactly the
configured namespace, and when authorization does not end the
request the pipeline proceeds to the metadata fetch with that bare
identifier; longer all-separator paths instead split into two segments and
are rejected before the metadata fetch. -/
theorem bare_separator_path_reaches_metadata (dh : DownloadHandler) (r : Request)
    (hm : r.method = "GET")
    (hp : r.urlPath = "" ∨ r.urlPath = "/" ∨ r.urlPath = "//")
    (hauth : authStage dh r dh.PrefixStr = none) :
    parsePath r.urlPath = [""] ∧
    ServeHTTP dh r = metadataStage dh r dh.PrefixStr (-1) := by
  have hpp : parsePath r.urlPath = [""] := by
    rcases hp with h | h | h <;> rw [h] <;> decide
  refine ⟨hpp, ServeHTTP_reaches_metadata dh r dh.PrefixStr (-1) hm ?_ hauth ?_⟩
  · rw [hpp]
    exact (String.append_empty dh.PrefixStr).symm
  · rw [hpp]
    rfl

/-- Witness for C10 amended: GET with the empty path on the plain handler. -/
theorem bare_separator_path_reaches_metadata_witness :
    parsePath "" = [""] ∧
    ServeHTTP dhPlain { method := "GET", urlPath := "", ifNoneMatch := none } =
      metadataStage dhPlain
        { method := "GET", urlPath := "", ifNoneMatch := none } "" (-1) :=
  bare_separator_path_reaches_metadata dhPlain
    { method := "GET", urlPath := "", ifNoneMatch := none }
    (by decide) (Or.inl rfl) rfl

/-! ## C9: route-table construction (runHandlers, main.go lines 239-248) -/

/-- The per-port request multiplexer.  Modelled from the spec: the DsidMux
type itself is not under src (only its use in runHandlers is); section 4.2
describes it as a mapping from segment identifiers to pipelines plus a
default pipeline for unmatched segments. -/
structure DsidMux (H : Type) where
  DefaultHandler : Option H := none
  handlers : List (String × H) := []

/-- Modelled from the spec: AddHandler registers a pipeline under a segment
identifier, and registering the same identifier twice replaces the prior
binding (last registration wins). -/
def AddHandler {H : Type} (m : DsidMux H) (name : String) (h : H) : DsidMux H :=
  { m with handlers := (name, h) :: m.handlers.filter (fun p => p.1 != name) }

/-- The pipeline registered for a segment identifier, if any. -/
def lookupDsid {H : Type} (m : DsidMux H) (name : String) : Option H :=
  (m.handlers.find? (fun p => p.1 == name)).map Prod.snd

/-- The body of the loop over a handler's Datastream_id list (main.go lines
242-248): the literal name "default" installs the handler as the mux
default, any other name registers it as a routable segment. -/
def installStep {H : Type} (hh : H) (m : DsidMux H) (name : String) : DsidMux H :=
  if name = "default" then { m with DefaultHandler := some hh }
  else AddHandler m name hh

/-- Installation of one configured handler into its port's mux (main.go
lines 239-248): a handler with zero segment identifiers becomes the
default, then each listed identifier is processed by installStep. -/
def installHandler {H : Type} (mux : DsidMux H) (dsids : List String) (hh : H) :
    DsidMux H :=
  let mux1 :=
    if dsids.length = 0 then { mux with DefaultHandler := some hh } else mux
  dsids.foldl (installStep hh) mux1

/-- installStep never removes an installed default equal to hh. -/
lemma installStep_default_preserved {H : Type} (hh : H) (m : DsidMux H)
    (name : String) (hdef : m.DefaultHandler = some hh) :
    (installStep hh m name).DefaultHandler = some hh := by
  unfold installStep AddHandler
  by_cases h : name = "default" <;> simp [h, hdef]

/-- Folding installStep preserves a default equal to hh. -/
lemma foldl_installStep_default_preserved {H : Type} (hh : H)
    (dsids : List String) (m : DsidMux H) (hdef : m.DefaultHandler = some hh) :
    (dsids.foldl (installStep hh) m).DefaultHandler = some hh := by
  induction dsids generalizing m with
  | nil => exact hdef
  | cons d rest ih =>
    exact ih (installStep hh m d) (installStep_default_preserved hh m d hdef)

/-- Folding installStep over a list containing "default" installs hh as the
default. -/
lemma foldl_installStep_default_mem {H : Type} (hh : H)
    (dsids : List String) (m : DsidMux H) (hmem : "default" ∈ dsids) :
    (dsids.foldl (installStep hh) m).DefaultHandler = some hh := by
  induction dsids generalizing m with
  | nil => cases hmem
  | cons d rest ih =>
    by_cases hd : d = "default"
    · subst hd
      rw [List.foldl_cons]
      apply foldl_installStep_default_preserved
      simp [installStep]
    · rcases List.mem_cons.mp hmem with h | h
      · exact absurd h.symm hd
      · rw [List.foldl_cons]
        exact ih (installStep hh m d) h

/-- find? for one key skips entries filtered out under a different key. -/
lemma find_filter_ne {H : Type} (l : List (String × H)) (d name : String)
    (hne : name ≠ d) :
    (l.filter (fun p => p.1 != d)).find? (fun p => p.1 == name) =
      l.find? (fun p => p.1 == name) := by
  induction l with
  | nil => rfl
  | cons kv rest ih =>
    by_cases hk : kv.1 = d
    · have h1 : (kv.1 != d) = false := by simp [hk]
      have h2 : (kv.1 == name) = false := by
        simp [hk]
        exact fun h => absurd h.symm hne
      simp [List.filter_cons, List.find?_cons, h1, h2, ih]
    · have h1 : (kv.1 != d) = true := by simp [hk]
      by_cases hn : kv.1 = name
      · simp [List.filter_cons, List.find?_cons, h1, hn, hne]
      · have h2 : (kv.1 == name) = false := by simp [hn]
        simp [List.filter_cons, List.find?_cons, h1, h2, ih]

/-- installStep leaves the binding of any other name unchanged. -/
lemma installStep_lookup_other {H : Type} (hh : H) (m : DsidMux H)
    (d name : String) (hne : name ≠ d) :
    lookupDsid (installStep hh m d) name = lookupDsid m name := by
  unfold installStep AddHandler lookupDsid
  by_cases h : d = "default"
  · simp [h]
  · have hbeq : (d == name) = false := by
      simp
      exact fun hcon => absurd hcon.symm hne
    simp [h, List.find?_cons, hbeq, find_filter_ne m.handlers d name hne]

/-- Folding installStep over a list not containing a name leaves that
name's binding unchanged. -/
lemma foldl_installStep_lookup_not_mem {H : Type} (hh : H)
    (dsids : List String) (m : DsidMux H) (name : String)
    (hnm : name ∉ dsids) :
    lookupDsid (dsids.foldl (installStep hh) m) name = lookupDsid m name := by
  induction dsids generalizing m with
  | nil => rfl
  | cons d rest ih =>
    have hd : name ≠ d := fun h => hnm (h ▸ List.mem_cons_self d rest)
    have hr : name ∉ rest := fun h => hnm (List.mem_cons_of_mem d h)
    rw [List.foldl_cons, ih (installStep hh m d) hr,
      installStep_lookup_other hh m d name hd]

/-- After AddHandler, the added name resolves to the added pipeline. -/
lemma lookup_AddHandler_self {H : Type} (m : DsidMux H) (name : String) (hh : H) :
    lookupDsid (AddHandler m name hh) name = some hh := by
  unfold AddHandler lookupDsid
  simp [List.find?_cons]

/-- Folding installStep over a list containing a non-"default" name binds
that name to hh. -/
lemma foldl_installStep_lookup_mem {H : Type} (hh : H)
    (dsids : List String) (m : DsidMux H) (name : String)
    (hmem : name ∈ dsids) (hnd : name ≠ "default") :
    lookupDsid (dsids.foldl (installStep hh) m) name = some hh := by
  induction dsids generalizing m with
  | nil => cases hmem
  | cons d rest ih =>
    by_cases hr : name ∈ rest
    · exact ih (installStep hh m d) hr
    · have hd : name = d := by
        rcases List.mem_cons.mp hmem with h | h
        · exact h
        · exact absurd h hr
      subst hd
      rw [List.foldl_cons,
        foldl_installStep_lookup_not_mem hh rest (installStep hh m name) name hr]
      unfold installStep
      rw [if_neg hnd]
      exact lookup_AddHandler_self m name hh

/-- installStep never touches the binding registered under "default". -/
lemma foldl_installStep_lookup_default {H : Type} (hh : H)
    (dsids : List String) (m : DsidMux H) :
    lookupDsid (dsids.foldl (installStep hh) m) "default" =
      lookupDsid m "default" := by
  induction dsids generalizing m with
  | nil => rfl
  | cons d rest ih =>
    rw [List.foldl_cons, ih (installStep hh m d)]
    by_cases hd : d = "default"
    · simp [installStep, lookupDsid, hd]
    · exact installStep_lookup_other hh m d "default" (fun h => hd h.symm)

/-- C9: installing a configured handler installs it as the port's default
when its segment-identifier list is empty or lists the literal "default";
every other listed identifier is registered as a routable segment resolving
to the handler; and nothing is ever registered under the segment "default"
itself. -/
theorem route_table_default_and_segments {H : Type} (mux : DsidMux H)
    (dsids : List String) (hh : H) :
    ((dsids = [] ∨ "default" ∈ dsids) →
       (installHandler mux dsids hh).DefaultHandler = some hh) ∧
    (∀ name, name ∈ dsids → name ≠ "default" →
       lookupDsid (installHandler mux dsids hh) name = some hh) ∧
    lookupDsid (installHandler mux dsids hh) "default" =
      lookupDsid mux "default" := by
  refine ⟨?_, ?_, ?_⟩
  · rintro (rfl | hmem)
    · rfl
    · unfold installHandler
      exact foldl_installStep_default_mem hh dsids _ hmem
  · intro name hmem hnd
    unfold installHandler
    exact foldl_installStep_lookup_mem hh dsids _ name hmem hnd
  · unfold installHandler
    rw [foldl_installStep_lookup_default]
    by_cases h : dsids.length = 0 <;> simp [h, lookupDsid]

/-- An empty mux over Nat-labelled pipelines, for the witness. -/
def muxE : DsidMux Nat := {}

/-- Witness for C9: installing pipeline 7 under segment list
[thumbnail, default] makes 7 the default and binds thumbnail to 7. -/
theorem route_table_default_and_segments_witness :
    (installHandler muxE ["thumbnail", "default"] 7).DefaultHandler = some 7 ∧
    lookupDsid (installHandler muxE ["thumbnail", "default"] 7) "thumbnail" = some 7 :=
  ⟨(route_table_default_and_segments muxE ["thumbnail", "default"] 7).1
      (Or.inr (by decide)),
   (route_table_default_and_segments muxE ["thumbnail", "default"] 7).2.1
      "thumbnail" (by decide) (by decide)⟩
